import Mathlib

/-!
Verification of the tic-tac-toe game state machine in
`src/program-native/src/game.rs`.

The embedding is shallow: the Rust `Game` struct becomes a Lean structure,
and the four operations (`create`, `join`, `next_move`, `keep_alive`) become
pure functions.  Rust methods take `&mut self` and return `Result<()>`; even
a method that returns `Err` may have mutated `self` first (this is exactly
the behaviour of `join`), so each operation here returns the pair
`(Except ProgramError Unit) × Game`: the result code together with the state
as it stands after the call.

Modelling choices:
* `Pubkey` (an opaque 32-byte identity compared only for equality) is
  modelled as `Nat`; the all-zero sentinel produced by `Pubkey::default()`
  is `0`.
* `u64` timestamps are modelled as `Nat`; the code only compares and stores
  them, so no wrap-around can occur.
* The board `[u8; 9]` is a `List Nat` of length 9 holding the cell tags
  `BOARD_ITEM_FREE`/`BOARD_ITEM_X`/`BOARD_ITEM_O`; theorems that need the
  fixed size carry the hypothesis `g.board.length = 9`.
* The two-element array `keep_alive: [u64; 2]` becomes the fields
  `keepAlive0` (index 0, player X) and `keepAlive1` (index 1, player O);
  the field cannot keep the Rust name because the method `keep_alive`
  lives in the same namespace.
-/

namespace TicTacToe

/-- `const BOARD_ITEM_FREE: u8 = 0` -/
def BOARD_ITEM_FREE : Nat := 0

/-- `const BOARD_ITEM_X: u8 = 1` -/
def BOARD_ITEM_X : Nat := 1

/-- `const BOARD_ITEM_O: u8 = 2` -/
def BOARD_ITEM_O : Nat := 2

/-- Opaque participant identity (`solana_sdk::pubkey::Pubkey`, 32 bytes,
only equality is ever used); `0` stands for the all-zero default. -/
abbrev Pubkey := Nat

/-- `enum GameState` from game.rs. -/
inductive GameState where
  | Waiting
  | XMove
  | OMove
  | XWon
  | OWon
  | Draw
deriving DecidableEq

/-- The error variants of `ProgramError` used by game.rs. -/
inductive ProgramError where
  | InvalidMove
  | GameInProgress
  | NotYourTurn
  | PlayerNotFound
  | InvalidTimestamp
deriving DecidableEq

deriving instance DecidableEq for Except

/-- `struct Game` from game.rs.  `keepAlive0`/`keepAlive1` are
`keep_alive[0]` (player X) and `keep_alive[1]` (player O). -/
structure Game where
  keepAlive0 : Nat
  keepAlive1 : Nat
  game_state : GameState
  player_x : Pubkey
  player_o : Pubkey
  board : List Nat
deriving DecidableEq

/-- `Game::default()`: zeroed timestamps and players, `Waiting`, free board. -/
def Game.default : Game :=
  { keepAlive0 := 0
    keepAlive1 := 0
    game_state := GameState.Waiting
    player_x := 0
    player_o := 0
    board := List.replicate 9 BOARD_ITEM_FREE }

/-- `Game::create` (game.rs lines 34-39). -/
def Game.create (player_x : Pubkey) : Game :=
  { Game.default with player_x := player_x }

/-- `Game::join` (game.rs lines 48-62).  Note the Rust code mutates
`player_o` and `game_state` before validating the timestamp, so the
mutated state is returned even on `InvalidTimestamp`. -/
def Game.join (g : Game) (player_o : Pubkey) (timestamp : Nat) :
    Except ProgramError Unit × Game :=
  if g.game_state = GameState.Waiting then
    let g1 : Game := { g with player_o := player_o, game_state := GameState.XMove }
    if timestamp ≤ g1.keepAlive1 then
      (Except.error ProgramError.InvalidTimestamp, g1)
    else
      (Except.ok (), { g1 with keepAlive1 := timestamp })
  else
    (Except.error ProgramError.GameInProgress, g)

/-- `Game::same` (game.rs lines 64-66). -/
def Game.same (x_or_o : Nat) (triple : List Nat) : Bool :=
  triple.all (fun i => i == x_or_o)

/-- The `winner` expression of `Game::next_move` (game.rs lines 95-106),
evaluated on the board after the mark has been placed: three row slices,
three columns, two diagonals. -/
def Game.winner (b : List Nat) (x_or_o : Nat) : Bool :=
  Game.same x_or_o (b.take 3)
    || Game.same x_or_o ((b.drop 3).take 3)
    || Game.same x_or_o ((b.drop 6).take 3)
    || Game.same x_or_o [b.getD 0 0, b.getD 3 0, b.getD 6 0]
    || Game.same x_or_o [b.getD 1 0, b.getD 4 0, b.getD 7 0]
    || Game.same x_or_o [b.getD 2 0, b.getD 5 0, b.getD 8 0]
    || Game.same x_or_o [b.getD 0 0, b.getD 4 0, b.getD 8 0]
    || Game.same x_or_o [b.getD 2 0, b.getD 4 0, b.getD 6 0]

/-- The tail of `Game::next_move` (game.rs lines 93-114) common to the
`XMove` and `OMove` branches: the phase has been flipped to `flip`
(lines 79/86), the mark `x_or_o` is placed (line 93), and the flipped
phase is then overwritten by `won` on a win or `Draw` on a full board
(lines 108-112). -/
def Game.place (g : Game) (board_index x_or_o : Nat) (won flip : GameState) : Game :=
  let b := g.board.set board_index x_or_o
  { g with
    board := b
    game_state :=
      if Game.winner b x_or_o then won
      else if b.all (fun p => p != BOARD_ITEM_FREE) then GameState.Draw
      else flip }

/-- `Game::next_move` (game.rs lines 68-115). -/
def Game.next_move (g : Game) (player : Pubkey) (x y : Nat) :
    Except ProgramError Unit × Game :=
  let board_index := y * 3 + x
  if board_index ≥ g.board.length ∨ g.board.getD board_index 0 ≠ BOARD_ITEM_FREE then
    (Except.error ProgramError.InvalidMove, g)
  else
    match g.game_state with
    | GameState.XMove =>
        if player ≠ g.player_x then
          (Except.error ProgramError.PlayerNotFound, g)
        else
          (Except.ok (), Game.place g board_index BOARD_ITEM_X GameState.XWon GameState.OMove)
    | GameState.OMove =>
        if player ≠ g.player_o then
          (Except.error ProgramError.PlayerNotFound, g)
        else
          (Except.ok (), Game.place g board_index BOARD_ITEM_O GameState.OWon GameState.XMove)
    | _ => (Except.error ProgramError.NotYourTurn, g)

/-- `Game::keep_alive` (game.rs lines 117-138). -/
def Game.keep_alive (g : Game) (player : Pubkey) (timestamp : Nat) :
    Except ProgramError Unit × Game :=
  match g.game_state with
  | GameState.Waiting | GameState.XMove | GameState.OMove =>
      if player = g.player_x then
        if timestamp ≤ g.keepAlive0 then
          (Except.error ProgramError.InvalidTimestamp, g)
        else
          (Except.ok (), { g with keepAlive0 := timestamp })
      else if player = g.player_o then
        if timestamp ≤ g.keepAlive1 then
          (Except.error ProgramError.InvalidTimestamp, g)
        else
          (Except.ok (), { g with keepAlive1 := timestamp })
      else
        (Except.error ProgramError.PlayerNotFound, g)
  | GameState.XWon | GameState.OWon | GameState.Draw => (Except.ok (), g)

/-- Terminal phases (`XWon`/`OWon`/`Draw`). -/
abbrev GameState.terminal (s : GameState) : Prop :=
  s = GameState.XWon ∨ s = GameState.OWon ∨ s = GameState.Draw

/-- Claim-side: the mover's mark for a turn phase (MarkX in XTurn, MarkO in
OTurn). -/
def moverMark (s : GameState) : Nat :=
  if s = GameState.XMove then BOARD_ITEM_X else BOARD_ITEM_O

/-- Claim-side: the winner-terminal phase matching the mover. -/
def moverWonState (s : GameState) : GameState :=
  if s = GameState.XMove then GameState.XWon else GameState.OWon

/-- Claim-side: the opponent's turn, to which the phase is flipped. -/
def flippedTurn (s : GameState) : GameState :=
  if s = GameState.XMove then GameState.OMove else GameState.XMove

/-- Claim-side win condition, phrased as the spec does: one of the 8 lines
(3 rows, 3 columns, 2 diagonals) holds three of the mover's marks.  Written
from the spec's cell-index description, independently of `Game.winner`. -/
abbrev markedLine (b : List Nat) (m i j k : Nat) : Prop :=
  b.getD i 0 = m ∧ b.getD j 0 = m ∧ b.getD k 0 = m

/-- Claim-side: some row, column or diagonal carries three marks `m`. -/
abbrev specWin (b : List Nat) (m : Nat) : Prop :=
  markedLine b m 0 1 2 ∨ markedLine b m 3 4 5 ∨ markedLine b m 6 7 8 ∨
  markedLine b m 0 3 6 ∨ markedLine b m 1 4 7 ∨ markedLine b m 2 5 8 ∨
  markedLine b m 0 4 8 ∨ markedLine b m 2 4 6

/-- Claim-side: all 9 cells are non-Empty. -/
abbrev boardFull (b : List Nat) : Prop :=
  ∀ i < 9, b.getD i 0 ≠ BOARD_ITEM_FREE

/-- Claim-side phase resolution after a move, as C1 words it: if any of the
8 lines holds three of the mover's marks the phase becomes the mover's Won
state; otherwise if all 9 cells are non-Empty it becomes `Draw`; otherwise it
stays the flipped opponent's-turn value (`b` is the board after placement,
`s` the phase the move started from). -/
def resolvedPhase (b : List Nat) (s : GameState) : GameState :=
  if specWin b (moverMark s) then moverWonState s
  else if boardFull b then GameState.Draw
  else flippedTurn s

/-- A concrete terminal match (X has won on the top row), used as a test
fixture by witnesses. -/
def wonFixture : Game :=
  { keepAlive0 := 3
    keepAlive1 := 4
    game_state := GameState.XWon
    player_x := 1
    player_o := 2
    board := [1, 1, 1, 2, 2, 0, 0, 0, 0] }

/-- Matches reachable from `create` by sequences of accepted (`Ok`)
operations. -/
inductive Reachable : Game → Prop where
  | created (p : Pubkey) : Reachable (Game.create p)
  | joined (g : Game) (p : Pubkey) (ts : Nat) (hg : Reachable g)
      (hok : (g.join p ts).1 = Except.ok ()) : Reachable (g.join p ts).2
  | moved (g : Game) (p : Pubkey) (x y : Nat) (hg : Reachable g)
      (hok : (g.next_move p x y).1 = Except.ok ()) :
      Reachable (g.next_move p x y).2
  | kept (g : Game) (p : Pubkey) (ts : Nat) (hg : Reachable g)
      (hok : (g.keep_alive p ts).1 = Except.ok ()) :
      Reachable (g.keep_alive p ts).2

/-- The phase-indexed mark-count invariant: X moves first and marks
alternate, so the X/O count difference is fixed by the phase. -/
def MarkInv (g : Game) : Prop :=
  (g.game_state = GameState.Waiting →
    g.board.count BOARD_ITEM_X = g.board.count BOARD_ITEM_O) ∧
  (g.game_state = GameState.XMove →
    g.board.count BOARD_ITEM_X = g.board.count BOARD_ITEM_O) ∧
  (g.game_state = GameState.OMove →
    g.board.count BOARD_ITEM_X = g.board.count BOARD_ITEM_O + 1) ∧
  (g.game_state = GameState.XWon →
    g.board.count BOARD_ITEM_X = g.board.count BOARD_ITEM_O + 1) ∧
  (g.game_state = GameState.OWon →
    g.board.count BOARD_ITEM_X = g.board.count BOARD_ITEM_O) ∧
  (g.game_state = GameState.Draw →
    (g.board.count BOARD_ITEM_X = g.board.count BOARD_ITEM_O ∨
     g.board.count BOARD_ITEM_X = g.board.count BOARD_ITEM_O + 1))

/-! ### Generic list helper lemmas -/

lemma length_eq_nine (b : List Nat) (h : b.length = 9) :
    ∃ a0 a1 a2 a3 a4 a5 a6 a7 a8,
      b = [a0, a1, a2, a3, a4, a5, a6, a7, a8] := by
  rcases b with _ | ⟨a0, b⟩
  · simp at h
  rcases b with _ | ⟨a1, b⟩
  · simp at h
  rcases b with _ | ⟨a2, b⟩
  · simp at h
  rcases b with _ | ⟨a3, b⟩
  · simp at h
  rcases b with _ | ⟨a4, b⟩
  · simp at h
  rcases b with _ | ⟨a5, b⟩
  · simp at h
  rcases b with _ | ⟨a6, b⟩
  · simp at h
  rcases b with _ | ⟨a7, b⟩
  · simp at h
  rcases b with _ | ⟨a8, b⟩
  · simp at h
  rcases b with _ | ⟨a9, b⟩
  · exact ⟨a0, a1, a2, a3, a4, a5, a6, a7, a8, rfl⟩
  · simp [List.length_cons] at h

lemma getD_set_ne (b : List Nat) (i j v : Nat) (h : i ≠ j) :
    (b.set i v).getD j 0 = b.getD j 0 := by
  induction b generalizing i j with
  | nil => simp
  | cons a t ih =>
      cases i with
      | zero =>
          cases j with
          | zero => exact absurd rfl h
          | succ j => simp
      | succ i =>
          cases j with
          | zero => simp
          | succ j => simpa using ih i j (by omega)

lemma getD_set_self (b : List Nat) (i v : Nat) (h : i < b.length) :
    (b.set i v).getD i 0 = v := by
  induction b generalizing i with
  | nil => simp at h
  | cons a t ih =>
      cases i with
      | zero => simp
      | succ i => simpa using ih i (by simpa using h)

lemma count_set_of_getD_ne (b : List Nat) (i v w : Nat) (hi : i < b.length)
    (h0 : b.getD i 0 ≠ w) :
    (b.set i v).count w = b.count w + (if v = w then 1 else 0) := by
  induction b generalizing i with
  | nil => simp at hi
  | cons a t ih =>
      cases i with
      | zero =>
          simp only [List.getD_cons_zero] at h0
          simp only [List.set_cons_zero, List.count_cons]
          have ha : (w == a) = false := by
            simp only [beq_eq_false_iff_ne]
            exact fun hw => h0 hw.symm
          rcases eq_or_ne v w with hv | hv
          · simp [hv, ha, fun hw => h0 hw]
          · have hv2 : (w == v) = false := by
              simp only [beq_eq_false_iff_ne]
              exact fun hw => hv hw.symm
            simp [hv, ha, hv2, fun hw => h0 hw]
      | succ i =>
          simp only [List.getD_cons_succ] at h0
          simp only [List.set_cons_succ, List.count_cons]
          rw [ih i (by simpa using hi) h0]
          omega

lemma count_set_untouched (b : List Nat) (i v w : Nat)
    (h0 : b.getD i 0 ≠ w) (hv : v ≠ w) :
    (b.set i v).count w = b.count w := by
  rcases lt_or_ge i b.length with hi | hi
  · rw [count_set_of_getD_ne b i v w hi h0]
    simp [hv]
  · rw [List.set_eq_of_length_le hi]

/-! ### Equivalence of the code's win/full checks with the claim-side ones -/

lemma winner_iff (b : List Nat) (m : Nat) (h : b.length = 9) :
    Game.winner b m = true ↔ specWin b m := by
  obtain ⟨a0, a1, a2, a3, a4, a5, a6, a7, a8, rfl⟩ := length_eq_nine b h
  have hw : Game.winner [a0, a1, a2, a3, a4, a5, a6, a7, a8] m =
      (Game.same m [a0, a1, a2] || Game.same m [a3, a4, a5] ||
        Game.same m [a6, a7, a8] || Game.same m [a0, a3, a6] ||
        Game.same m [a1, a4, a7] || Game.same m [a2, a5, a8] ||
        Game.same m [a0, a4, a8] || Game.same m [a2, a4, a6]) := rfl
  have hs : specWin [a0, a1, a2, a3, a4, a5, a6, a7, a8] m ↔
      ((a0 = m ∧ a1 = m ∧ a2 = m) ∨ (a3 = m ∧ a4 = m ∧ a5 = m) ∨
        (a6 = m ∧ a7 = m ∧ a8 = m) ∨ (a0 = m ∧ a3 = m ∧ a6 = m) ∨
        (a1 = m ∧ a4 = m ∧ a7 = m) ∨ (a2 = m ∧ a5 = m ∧ a8 = m) ∨
        (a0 = m ∧ a4 = m ∧ a8 = m) ∨ (a2 = m ∧ a4 = m ∧ a6 = m)) := Iff.rfl
  rw [hw, hs]
  simp only [Game.same, List.all_cons, List.all_nil, Bool.or_eq_true,
    Bool.and_eq_true, Bool.and_true, beq_iff_eq, or_assoc]

lemma full_iff (b : List Nat) (h : b.length = 9) :
    (b.all (fun p => p != BOARD_ITEM_FREE) = true) ↔ boardFull b := by
  obtain ⟨a0, a1, a2, a3, a4, a5, a6, a7, a8, rfl⟩ := length_eq_nine b h
  constructor
  · intro hall
    simp only [List.all_cons, List.all_nil, Bool.and_eq_true, bne_iff_ne, ne_eq,
      Bool.and_true] at hall
    obtain ⟨h0, h1, h2, h3, h4, h5, h6, h7, h8⟩ := hall
    intro i hi
    interval_cases i
    · exact h0
    · exact h1
    · exact h2
    · exact h3
    · exact h4
    · exact h5
    · exact h6
    · exact h7
    · exact h8
  · intro hh
    simp only [List.all_cons, List.all_nil, Bool.and_eq_true, bne_iff_ne, ne_eq,
      Bool.and_true]
    exact ⟨hh 0 (by omega), hh 1 (by omega), hh 2 (by omega), hh 3 (by omega),
      hh 4 (by omega), hh 5 (by omega), hh 6 (by omega), hh 7 (by omega),
      hh 8 (by omega)⟩

/-! ### Case characterizations of the operations -/

lemma join_waiting_stale (g : Game) (joiner : Pubkey) (ts : Nat)
    (hw : g.game_state = GameState.Waiting) (hts : ts ≤ g.keepAlive1) :
    g.join joiner ts =
      (Except.error ProgramError.InvalidTimestamp,
        { g with player_o := joiner, game_state := GameState.XMove }) := by
  simp [Game.join, hw, hts]

lemma join_waiting_fresh (g : Game) (joiner : Pubkey) (ts : Nat)
    (hw : g.game_state = GameState.Waiting) (hts : g.keepAlive1 < ts) :
    g.join joiner ts =
      (Except.ok (),
        { g with player_o := joiner, game_state := GameState.XMove,
                 keepAlive1 := ts }) := by
  simp [Game.join, hw, Nat.not_le.mpr hts]

lemma join_not_waiting (g : Game) (joiner : Pubkey) (ts : Nat)
    (hw : g.game_state ≠ GameState.Waiting) :
    g.join joiner ts = (Except.error ProgramError.GameInProgress, g) := by
  simp [Game.join, hw]

lemma next_move_invalid (g : Game) (p : Pubkey) (x y : Nat)
    (h : y * 3 + x ≥ g.board.length ∨ g.board.getD (y * 3 + x) 0 ≠ BOARD_ITEM_FREE) :
    g.next_move p x y = (Except.error ProgramError.InvalidMove, g) := by
  simp only [Game.next_move]
  rw [if_pos h]

lemma next_move_not_turn (g : Game) (p : Pubkey) (x y : Nat)
    (h : ¬(y * 3 + x ≥ g.board.length ∨ g.board.getD (y * 3 + x) 0 ≠ BOARD_ITEM_FREE))
    (hsx : g.game_state ≠ GameState.XMove) (hso : g.game_state ≠ GameState.OMove) :
    g.next_move p x y = (Except.error ProgramError.NotYourTurn, g) := by
  simp only [Game.next_move]
  rw [if_neg h]

lemma next_move_x_wrong_player (g : Game) (p : Pubkey) (x y : Nat)
    (h : ¬(y * 3 + x ≥ g.board.length ∨ g.board.getD (y * 3 + x) 0 ≠ BOARD_ITEM_FREE))
    (hs : g.game_state = GameState.XMove) (hp : p ≠ g.player_x) :
    g.next_move p x y = (Except.error ProgramError.PlayerNotFound, g) := by
  simp only [Game.next_move]
  rw [if_neg h, hs]
  simp [hp]

lemma next_move_x_ok (g : Game) (p : Pubkey) (x y : Nat)
    (h : ¬(y * 3 + x ≥ g.board.length ∨ g.board.getD (y * 3 + x) 0 ≠ BOARD_ITEM_FREE))
    (hs : g.game_state = GameState.XMove) (hp : p = g.player_x) :
    g.next_move p x y =
      (Except.ok (),
        Game.place g (y * 3 + x) BOARD_ITEM_X GameState.XWon GameState.OMove) := by
  simp only [Game.next_move]
  rw [if_neg h, hs]
  simp [hp]

lemma next_move_o_wrong_player (g : Game) (p : Pubkey) (x y : Nat)
    (h : ¬(y * 3 + x ≥ g.board.length ∨ g.board.getD (y * 3 + x) 0 ≠ BOARD_ITEM_FREE))
    (hs : g.game_state = GameState.OMove) (hp : p ≠ g.player_o) :
    g.next_move p x y = (Except.error ProgramError.PlayerNotFound, g) := by
  simp only [Game.next_move]
  rw [if_neg h, hs]
  simp [hp]

lemma next_move_o_ok (g : Game) (p : Pubkey) (x y : Nat)
    (h : ¬(y * 3 + x ≥ g.board.length ∨ g.board.getD (y * 3 + x) 0 ≠ BOARD_ITEM_FREE))
    (hs : g.game_state = GameState.OMove) (hp : p = g.player_o) :
    g.next_move p x y =
      (Except.ok (),
        Game.place g (y * 3 + x) BOARD_ITEM_O GameState.OWon GameState.XMove) := by
  simp only [Game.next_move]
  rw [if_neg h, hs]
  simp [hp]

lemma keep_alive_terminal (g : Game) (p : Pubkey) (ts : Nat)
    (h : g.game_state.terminal) :
    g.keep_alive p ts = (Except.ok (), g) := by
  rcases h with h | h | h <;> simp [Game.keep_alive, h]

lemma keep_alive_live_unfold (g : Game) (p : Pubkey) (ts : Nat)
    (h : ¬g.game_state.terminal) :
    g.keep_alive p ts =
      (if p = g.player_x then
        if ts ≤ g.keepAlive0 then (Except.error ProgramError.InvalidTimestamp, g)
        else (Except.ok (), { g with keepAlive0 := ts })
      else if p = g.player_o then
        if ts ≤ g.keepAlive1 then (Except.error ProgramError.InvalidTimestamp, g)
        else (Except.ok (), { g with keepAlive1 := ts })
      else (Except.error ProgramError.PlayerNotFound, g)) := by
  simp only [GameState.terminal, not_or] at h
  simp only [Game.keep_alive]
  cases hgs : g.game_state
  case Waiting => rfl
  case XMove => rfl
  case OMove => rfl
  case XWon => exact absurd hgs h.1
  case OWon => exact absurd hgs h.2.1
  case Draw => exact absurd hgs h.2.2

lemma keep_alive_snd_frame (g : Game) (p : Pubkey) (ts : Nat) :
    (g.keep_alive p ts).2.board = g.board ∧
    (g.keep_alive p ts).2.game_state = g.game_state ∧
    (g.keep_alive p ts).2.player_x = g.player_x ∧
    (g.keep_alive p ts).2.player_o = g.player_o := by
  by_cases ht : g.game_state.terminal
  · rw [keep_alive_terminal g p ts ht]
    exact ⟨rfl, rfl, rfl, rfl⟩
  · rw [keep_alive_live_unfold g p ts ht]
    split_ifs <;> exact ⟨rfl, rfl, rfl, rfl⟩

lemma join_snd_board (g : Game) (j : Pubkey) (ts : Nat) :
    (g.join j ts).2.board = g.board := by
  by_cases hw : g.game_state = GameState.Waiting
  · by_cases hts : ts ≤ g.keepAlive1
    · rw [join_waiting_stale g j ts hw hts]
    · rw [join_waiting_fresh g j ts hw (by omega)]
  · rw [join_not_waiting g j ts hw]

lemma join_ok_inversion (g : Game) (p : Pubkey) (ts : Nat)
    (h : (g.join p ts).1 = Except.ok ()) :
    g.game_state = GameState.Waiting ∧ g.keepAlive1 < ts ∧
    (g.join p ts).2 =
      { g with player_o := p, game_state := GameState.XMove,
               keepAlive1 := ts } := by
  by_cases hw : g.game_state = GameState.Waiting
  · by_cases hts : ts ≤ g.keepAlive1
    · rw [join_waiting_stale g p ts hw hts] at h
      simp at h
    · have hlt : g.keepAlive1 < ts := by omega
      exact ⟨hw, hlt, by rw [join_waiting_fresh g p ts hw hlt]⟩
  · rw [join_not_waiting g p ts hw] at h
    simp at h

lemma next_move_err_frame (g : Game) (p : Pubkey) (x y : Nat)
    (h : (g.next_move p x y).1 ≠ Except.ok ()) :
    (g.next_move p x y).2 = g := by
  by_cases hguard : y * 3 + x ≥ g.board.length ∨
      g.board.getD (y * 3 + x) 0 ≠ BOARD_ITEM_FREE
  · rw [next_move_invalid g p x y hguard]
  · cases hgs : g.game_state
    · rw [next_move_not_turn g p x y hguard (by rw [hgs]; simp)
        (by rw [hgs]; simp)]
    · by_cases hp : p = g.player_x
      · rw [next_move_x_ok g p x y hguard hgs hp] at h
        simp at h
      · rw [next_move_x_wrong_player g p x y hguard hgs hp]
    · by_cases hp : p = g.player_o
      · rw [next_move_o_ok g p x y hguard hgs hp] at h
        simp at h
      · rw [next_move_o_wrong_player g p x y hguard hgs hp]
    · rw [next_move_not_turn g p x y hguard (by rw [hgs]; simp)
        (by rw [hgs]; simp)]
    · rw [next_move_not_turn g p x y hguard (by rw [hgs]; simp)
        (by rw [hgs]; simp)]
    · rw [next_move_not_turn g p x y hguard (by rw [hgs]; simp)
        (by rw [hgs]; simp)]

lemma next_move_ok_inversion (g : Game) (p : Pubkey) (x y : Nat)
    (h : (g.next_move p x y).1 = Except.ok ()) :
    (y * 3 + x < g.board.length ∧
      g.board.getD (y * 3 + x) 0 = BOARD_ITEM_FREE) ∧
    ((g.game_state = GameState.XMove ∧ p = g.player_x ∧
        (g.next_move p x y).2 =
          Game.place g (y * 3 + x) BOARD_ITEM_X GameState.XWon GameState.OMove) ∨
     (g.game_state = GameState.OMove ∧ p = g.player_o ∧
        (g.next_move p x y).2 =
          Game.place g (y * 3 + x) BOARD_ITEM_O GameState.OWon GameState.XMove)) := by
  by_cases hguard : y * 3 + x ≥ g.board.length ∨
      g.board.getD (y * 3 + x) 0 ≠ BOARD_ITEM_FREE
  · rw [next_move_invalid g p x y hguard] at h
    simp at h
  · have hg2 := hguard
    push_neg at hg2
    refine ⟨⟨by omega, hg2.2⟩, ?_⟩
    cases hgs : g.game_state
    · rw [next_move_not_turn g p x y hguard (by rw [hgs]; simp)
        (by rw [hgs]; simp)] at h
      simp at h
    · by_cases hp : p = g.player_x
      · exact Or.inl ⟨rfl, hp, by rw [next_move_x_ok g p x y hguard hgs hp]⟩
      · rw [next_move_x_wrong_player g p x y hguard hgs hp] at h
        simp at h
    · by_cases hp : p = g.player_o
      · exact Or.inr ⟨rfl, hp, by rw [next_move_o_ok g p x y hguard hgs hp]⟩
      · rw [next_move_o_wrong_player g p x y hguard hgs hp] at h
        simp at h
    · rw [next_move_not_turn g p x y hguard (by rw [hgs]; simp)
        (by rw [hgs]; simp)] at h
      simp at h
    · rw [next_move_not_turn g p x y hguard (by rw [hgs]; simp)
        (by rw [hgs]; simp)] at h
      simp at h
    · rw [next_move_not_turn g p x y hguard (by rw [hgs]; simp)
        (by rw [hgs]; simp)] at h
      simp at h

lemma markInv_place_x (g : Game) (idx : Nat) (hlt : idx < g.board.length)
    (hfree : g.board.getD idx 0 = BOARD_ITEM_FREE)
    (hcnt : g.board.count BOARD_ITEM_X = g.board.count BOARD_ITEM_O) :
    MarkInv (Game.place g idx BOARD_ITEM_X GameState.XWon GameState.OMove) := by
  have hcx : (g.board.set idx BOARD_ITEM_X).count BOARD_ITEM_X =
      g.board.count BOARD_ITEM_X + 1 := by
    rw [count_set_of_getD_ne g.board idx BOARD_ITEM_X BOARD_ITEM_X hlt
      (by rw [hfree]; decide)]
    simp
  have hco : (g.board.set idx BOARD_ITEM_X).count BOARD_ITEM_O =
      g.board.count BOARD_ITEM_O :=
    count_set_untouched g.board idx BOARD_ITEM_X BOARD_ITEM_O
      (by rw [hfree]; decide) (by decide)
  unfold MarkInv Game.place
  dsimp only
  split_ifs
  · exact ⟨fun hc => by simp at hc, fun hc => by simp at hc,
      fun hc => by simp at hc, fun _ => by rw [hcx, hco, hcnt],
      fun hc => by simp at hc, fun hc => by simp at hc⟩
  · exact ⟨fun hc => by simp at hc, fun hc => by simp at hc,
      fun hc => by simp at hc, fun hc => by simp at hc,
      fun hc => by simp at hc, fun _ => Or.inr (by rw [hcx, hco, hcnt])⟩
  · exact ⟨fun hc => by simp at hc, fun hc => by simp at hc,
      fun _ => by rw [hcx, hco, hcnt], fun hc => by simp at hc,
      fun hc => by simp at hc, fun hc => by simp at hc⟩

lemma markInv_place_o (g : Game) (idx : Nat) (hlt : idx < g.board.length)
    (hfree : g.board.getD idx 0 = BOARD_ITEM_FREE)
    (hcnt : g.board.count BOARD_ITEM_X = g.board.count BOARD_ITEM_O + 1) :
    MarkInv (Game.place g idx BOARD_ITEM_O GameState.OWon GameState.XMove) := by
  have hco : (g.board.set idx BOARD_ITEM_O).count BOARD_ITEM_O =
      g.board.count BOARD_ITEM_O + 1 := by
    rw [count_set_of_getD_ne g.board idx BOARD_ITEM_O BOARD_ITEM_O hlt
      (by rw [hfree]; decide)]
    simp
  have hcx : (g.board.set idx BOARD_ITEM_O).count BOARD_ITEM_X =
      g.board.count BOARD_ITEM_X :=
    count_set_untouched g.board idx BOARD_ITEM_O BOARD_ITEM_X
      (by rw [hfree]; decide) (by decide)
  unfold MarkInv Game.place
  dsimp only
  split_ifs
  · exact ⟨fun hc => by simp at hc, fun hc => by simp at hc,
      fun hc => by simp at hc, fun hc => by simp at hc,
      fun _ => by rw [hcx, hco, hcnt], fun hc => by simp at hc⟩
  · exact ⟨fun hc => by simp at hc, fun hc => by simp at hc,
      fun hc => by simp at hc, fun hc => by simp at hc,
      fun hc => by simp at hc, fun _ => Or.inl (by rw [hcx, hco, hcnt])⟩
  · exact ⟨fun hc => by simp at hc, fun _ => by rw [hcx, hco, hcnt],
      fun hc => by simp at hc, fun hc => by simp at hc,
      fun hc => by simp at hc, fun hc => by simp at hc⟩

lemma markInv_reachable (g : Game) (h : Reachable g) : MarkInv g := by
  induction h with
  | created p =>
      refine ⟨fun _ => rfl, fun hc => ?_, fun hc => ?_, fun hc => ?_,
        fun hc => ?_, fun hc => ?_⟩ <;>
        exact absurd hc (by simp [Game.create, Game.default])
  | joined g p ts hg hok ih =>
      obtain ⟨hw, hts, h2⟩ := join_ok_inversion g p ts hok
      rw [h2]
      exact ⟨fun hc => by simp at hc, fun _ => ih.1 hw,
        fun hc => by simp at hc, fun hc => by simp at hc,
        fun hc => by simp at hc, fun hc => by simp at hc⟩
  | moved g p x y hg hok ih =>
      obtain ⟨⟨hlt, hfree⟩, hcase⟩ := next_move_ok_inversion g p x y hok
      rcases hcase with ⟨hgs, hp, h2⟩ | ⟨hgs, hp, h2⟩
      · rw [h2]
        exact markInv_place_x g _ hlt hfree (ih.2.1 hgs)
      · rw [h2]
        exact markInv_place_o g _ hlt hfree (ih.2.2.1 hgs)
  | kept g p ts hg hok ih =>
      obtain ⟨hb, hgs, -, -⟩ := keep_alive_snd_frame g p ts
      unfold MarkInv at ih ⊢
      rw [hb, hgs]
      exact ih

/-! ### Claim theorems -/

/-- C8: `create(initiator)` returns a match with `playerX = initiator`,
`playerO` at the all-zero sentinel, all 9 board cells Empty, phase
`Waiting`, and both liveness timestamps at the minimum sentinel 0; its
return type is a plain `Game`, so it has no failure mode. -/
theorem claim_C8_create_initial_state (initiator : Pubkey) :
    Game.create initiator =
      { keepAlive0 := 0
        keepAlive1 := 0
        game_state := GameState.Waiting
        player_x := initiator
        player_o := 0
        board := List.replicate 9 BOARD_ITEM_FREE } := rfl

/-- C3: on a `Waiting` match, `join` sets `playerO` and advances the phase
to `XTurn` before validating the timestamp, so a join rejected with
`InvalidTimestamp` (timestamp not strictly greater than the stored
`lastActiveO`) still leaves the match joined and in `XTurn`; on any other
phase `join` fails with `GameInProgress` and changes nothing. -/
theorem claim_C3_join_commits_before_validation (g : Game) (joiner : Pubkey)
    (ts : Nat) :
    (g.game_state = GameState.Waiting →
      (ts ≤ g.keepAlive1 →
        g.join joiner ts =
          (Except.error ProgramError.InvalidTimestamp,
            { g with player_o := joiner, game_state := GameState.XMove })) ∧
      (g.keepAlive1 < ts →
        g.join joiner ts =
          (Except.ok (),
            { g with player_o := joiner, game_state := GameState.XMove,
                     keepAlive1 := ts }))) ∧
    (g.game_state ≠ GameState.Waiting →
      g.join joiner ts = (Except.error ProgramError.GameInProgress, g)) :=
  ⟨fun hw => ⟨fun hts => join_waiting_stale g joiner ts hw hts,
              fun hts => join_waiting_fresh g joiner ts hw hts⟩,
   fun hw => join_not_waiting g joiner ts hw⟩

/-- Witness for C3: a join with a stale timestamp on a fresh match fails
with `InvalidTimestamp` yet leaves the match joined and in `XMove`. -/
theorem claim_C3_witness :
    (Game.create 1).join 5 0 =
      (Except.error ProgramError.InvalidTimestamp,
        { Game.create 1 with player_o := 5, game_state := GameState.XMove }) :=
  ((claim_C3_join_commits_before_validation (Game.create 1) 5 0).1 rfl).1
    (Nat.le_refl 0)

/-- C9: `next_move` validates only the linear index `y*3+x` against
`[0, 9)`, not `x` and `y` individually: with `x = 4 ≥ 3`, `y = 0` on a
fresh joined match (X's turn, every cell Empty) the move succeeds and the
mark lands at board index `y*3+x = 4`. -/
theorem claim_C9_no_individual_coordinate_check :
    3 ≤ 4 ∧
    ((((Game.create 1).join 2 1).2.next_move 1 4 0).1 = Except.ok ()) ∧
    ((((Game.create 1).join 2 1).2.next_move 1 4 0).2.board.getD (0 * 3 + 4) 0 =
      BOARD_ITEM_X) :=
  ⟨by decide, rfl, rfl⟩

/-- C2: a move is accepted iff the target cell's linear index is in
`[0, 9)`, that cell is Empty, and the acting identity equals the expected
mover for the current turn phase; every rejected move leaves the match
unchanged and returns the typed error determined by checking `InvalidMove`,
then `NotYourTurn`, then `PlayerNotFound`, in that order. -/
theorem claim_C2_move_acceptance (g : Game) (player : Pubkey) (x y : Nat)
    (h9 : g.board.length = 9) :
    ((g.next_move player x y).1 = Except.ok () ↔
      (y * 3 + x < 9 ∧ g.board.getD (y * 3 + x) 0 = BOARD_ITEM_FREE ∧
        ((g.game_state = GameState.XMove ∧ player = g.player_x) ∨
         (g.game_state = GameState.OMove ∧ player = g.player_o)))) ∧
    ((g.next_move player x y).1 ≠ Except.ok () →
      (g.next_move player x y).2 = g ∧
      (g.next_move player x y).1 = Except.error
        (if ¬(y * 3 + x < 9 ∧ g.board.getD (y * 3 + x) 0 = BOARD_ITEM_FREE) then
          ProgramError.InvalidMove
        else if ¬(g.game_state = GameState.XMove ∨ g.game_state = GameState.OMove) then
          ProgramError.NotYourTurn
        else ProgramError.PlayerNotFound)) := by
  by_cases hguard : y * 3 + x ≥ g.board.length ∨
      g.board.getD (y * 3 + x) 0 ≠ BOARD_ITEM_FREE
  · have hng : ¬(y * 3 + x < 9 ∧ g.board.getD (y * 3 + x) 0 = BOARD_ITEM_FREE) := by
      rcases hguard with hge | hne
      · rw [h9] at hge
        exact fun hc => absurd hc.1 (by omega)
      · exact fun hc => hne hc.2
    rw [next_move_invalid g player x y hguard]
    refine ⟨⟨fun hok => by simp at hok, fun hc => absurd ⟨hc.1, hc.2.1⟩ hng⟩,
      fun _ => ⟨rfl, ?_⟩⟩
    rw [if_pos hng]
  · have hlt : y * 3 + x < 9 := by
      rw [← h9]
      omega
    have hfree : g.board.getD (y * 3 + x) 0 = BOARD_ITEM_FREE := by
      by_contra hne
      exact hguard (Or.inr hne)
    have hfree2 : (g.board[y * 3 + x]?).getD 0 = BOARD_ITEM_FREE := by
      simpa using hfree
    cases hgs : g.game_state
    · -- Waiting
      rw [next_move_not_turn g player x y hguard (by rw [hgs]; simp)
        (by rw [hgs]; simp)]
      simp [hlt, hfree, hfree2, hgs]
    · -- XMove
      by_cases hp : player = g.player_x
      · rw [next_move_x_ok g player x y hguard hgs hp]
        simp [hlt, hfree, hfree2, hgs, hp]
      · rw [next_move_x_wrong_player g player x y hguard hgs hp]
        simp [hlt, hfree, hfree2, hgs, hp]
    · -- OMove
      by_cases hp : player = g.player_o
      · rw [next_move_o_ok g player x y hguard hgs hp]
        simp [hlt, hfree, hfree2, hgs, hp]
      · rw [next_move_o_wrong_player g player x y hguard hgs hp]
        simp [hlt, hfree, hfree2, hgs, hp]
    · -- XWon
      rw [next_move_not_turn g player x y hguard (by rw [hgs]; simp)
        (by rw [hgs]; simp)]
      simp [hlt, hfree, hfree2, hgs]
    · -- OWon
      rw [next_move_not_turn g player x y hguard (by rw [hgs]; simp)
        (by rw [hgs]; simp)]
      simp [hlt, hfree, hfree2, hgs]
    · -- Draw
      rw [next_move_not_turn g player x y hguard (by rw [hgs]; simp)
        (by rw [hgs]; simp)]
      simp [hlt, hfree, hfree2, hgs]

/-- Witness for C2: on a fresh joined match, the accept direction holds for
X's first move, and a move by the wrong identity is rejected with
`PlayerNotFound` leaving the match unchanged. -/
theorem claim_C2_witness :
    ((((Game.create 1).join 2 1).2.next_move 1 0 0).1 = Except.ok ()) ∧
    ((((Game.create 1).join 2 1).2.next_move 2 0 0).2 =
      ((Game.create 1).join 2 1).2) := by
  constructor
  · exact (claim_C2_move_acceptance ((Game.create 1).join 2 1).2 1 0 0 rfl).1.mpr
      ⟨by decide, rfl, Or.inl ⟨rfl, rfl⟩⟩
  · exact ((claim_C2_move_acceptance ((Game.create 1).join 2 1).2 2 0 0 rfl).2
      (by decide)).1

/-- C1: an accepted move (turn phase, matching player, linear index in
`[0, 9)`, target cell Empty) places the mover's mark at that cell, leaves
players and timestamps untouched, and resolves the phase on the board after
placement: the mover's Won state if one of the 8 lines holds three of the
mover's marks, else `Draw` if all 9 cells are non-Empty, else the flipped
opponent's-turn value — so a move that both fills the board and wins
resolves to the win, never to `Draw`. -/
theorem claim_C1_move_effects (g : Game) (player : Pubkey) (x y : Nat)
    (h9 : g.board.length = 9)
    (hidx : y * 3 + x < 9)
    (hfree : g.board.getD (y * 3 + x) 0 = BOARD_ITEM_FREE)
    (hturn : (g.game_state = GameState.XMove ∧ player = g.player_x) ∨
             (g.game_state = GameState.OMove ∧ player = g.player_o)) :
    g.next_move player x y =
      (Except.ok (),
        { g with
          board := g.board.set (y * 3 + x) (moverMark g.game_state)
          game_state :=
            resolvedPhase (g.board.set (y * 3 + x) (moverMark g.game_state))
              g.game_state }) := by
  have hguard : ¬(y * 3 + x ≥ g.board.length ∨
      g.board.getD (y * 3 + x) 0 ≠ BOARD_ITEM_FREE) := by
    rw [h9]
    push_neg
    exact ⟨hidx, hfree⟩
  have hb9 : (g.board.set (y * 3 + x) (moverMark g.game_state)).length = 9 := by
    rw [List.length_set, h9]
  rcases hturn with ⟨hgs, hp⟩ | ⟨hgs, hp⟩
  · rw [next_move_x_ok g player x y hguard hgs hp]
    have hm : moverMark g.game_state = BOARD_ITEM_X := by
      simp [moverMark, hgs]
    rw [hm] at hb9 ⊢
    have hr : resolvedPhase (g.board.set (y * 3 + x) BOARD_ITEM_X) g.game_state =
        (if specWin (g.board.set (y * 3 + x) BOARD_ITEM_X) BOARD_ITEM_X then
          GameState.XWon
        else if boardFull (g.board.set (y * 3 + x) BOARD_ITEM_X) then
          GameState.Draw
        else GameState.OMove) := by
      simp [resolvedPhase, moverMark, moverWonState, flippedTurn, hgs]
    have hstate :
        (if Game.winner (g.board.set (y * 3 + x) BOARD_ITEM_X) BOARD_ITEM_X then
          GameState.XWon
        else if (g.board.set (y * 3 + x) BOARD_ITEM_X).all
            (fun p => p != BOARD_ITEM_FREE) then
          GameState.Draw
        else GameState.OMove) =
        resolvedPhase (g.board.set (y * 3 + x) BOARD_ITEM_X) g.game_state := by
      rw [hr]
      by_cases hwin : specWin (g.board.set (y * 3 + x) BOARD_ITEM_X) BOARD_ITEM_X
      · rw [if_pos ((winner_iff _ _ hb9).mpr hwin), if_pos hwin]
      · rw [if_neg (fun hc => hwin ((winner_iff _ _ hb9).mp hc)), if_neg hwin]
        by_cases hfull : boardFull (g.board.set (y * 3 + x) BOARD_ITEM_X)
        · rw [if_pos ((full_iff _ hb9).mpr hfull), if_pos hfull]
        · rw [if_neg (fun hc => hfull ((full_iff _ hb9).mp hc)), if_neg hfull]
    simp only [Game.place]
    rw [hstate]
  · rw [next_move_o_ok g player x y hguard hgs hp]
    have hm : moverMark g.game_state = BOARD_ITEM_O := by
      simp [moverMark, BOARD_ITEM_X, BOARD_ITEM_O, hgs]
    rw [hm] at hb9 ⊢
    have hr : resolvedPhase (g.board.set (y * 3 + x) BOARD_ITEM_O) g.game_state =
        (if specWin (g.board.set (y * 3 + x) BOARD_ITEM_O) BOARD_ITEM_O then
          GameState.OWon
        else if boardFull (g.board.set (y * 3 + x) BOARD_ITEM_O) then
          GameState.Draw
        else GameState.XMove) := by
      simp [resolvedPhase, moverMark, moverWonState, flippedTurn, hgs]
    have hstate :
        (if Game.winner (g.board.set (y * 3 + x) BOARD_ITEM_O) BOARD_ITEM_O then
          GameState.OWon
        else if (g.board.set (y * 3 + x) BOARD_ITEM_O).all
            (fun p => p != BOARD_ITEM_FREE) then
          GameState.Draw
        else GameState.XMove) =
        resolvedPhase (g.board.set (y * 3 + x) BOARD_ITEM_O) g.game_state := by
      rw [hr]
      by_cases hwin : specWin (g.board.set (y * 3 + x) BOARD_ITEM_O) BOARD_ITEM_O
      · rw [if_pos ((winner_iff _ _ hb9).mpr hwin), if_pos hwin]
      · rw [if_neg (fun hc => hwin ((winner_iff _ _ hb9).mp hc)), if_neg hwin]
        by_cases hfull : boardFull (g.board.set (y * 3 + x) BOARD_ITEM_O)
        · rw [if_pos ((full_iff _ hb9).mpr hfull), if_pos hfull]
        · rw [if_neg (fun hc => hfull ((full_iff _ hb9).mp hc)), if_neg hfull]
    simp only [Game.place]
    rw [hstate]

/-- Witness for C1: X's first move on a fresh joined match is accepted,
marks cell 0 and flips the phase to `OMove`. -/
theorem claim_C1_witness :
    ((((Game.create 1).join 2 1).2.next_move 1 0 0).1 = Except.ok ()) ∧
    ((((Game.create 1).join 2 1).2.next_move 1 0 0).2.game_state =
      GameState.OMove) ∧
    ((((Game.create 1).join 2 1).2.next_move 1 0 0).2.board.getD 0 0 =
      BOARD_ITEM_X) := by
  have h := claim_C1_move_effects (((Game.create 1).join 2 1).2) 1 0 0 rfl
    (by decide) rfl (Or.inl ⟨rfl, rfl⟩)
  rw [h]
  exact ⟨rfl, by decide, by decide⟩

/-- C4: in every match reachable from `create` by accepted operations, the
count of MarkX cells minus the count of MarkO cells is 0 or 1. -/
theorem claim_C4_mark_count_invariant (g : Game) (h : Reachable g) :
    g.board.count BOARD_ITEM_X = g.board.count BOARD_ITEM_O ∨
    g.board.count BOARD_ITEM_X = g.board.count BOARD_ITEM_O + 1 := by
  have hi := markInv_reachable g h
  cases hgs : g.game_state
  · exact Or.inl (hi.1 hgs)
  · exact Or.inl (hi.2.1 hgs)
  · exact Or.inr (hi.2.2.1 hgs)
  · exact Or.inr (hi.2.2.2.1 hgs)
  · exact Or.inl (hi.2.2.2.2.1 hgs)
  · exact hi.2.2.2.2.2 hgs

/-- Witness for C4: the invariant at the reachable match create → join →
one X move (one MarkX, zero MarkO). -/
theorem claim_C4_witness :
    ((((Game.create 1).join 2 1).2.next_move 1 0 0).2.board.count BOARD_ITEM_X =
      (((Game.create 1).join 2 1).2.next_move 1 0 0).2.board.count BOARD_ITEM_O) ∨
    ((((Game.create 1).join 2 1).2.next_move 1 0 0).2.board.count BOARD_ITEM_X =
      (((Game.create 1).join 2 1).2.next_move 1 0 0).2.board.count BOARD_ITEM_O
        + 1) :=
  claim_C4_mark_count_invariant _
    (Reachable.moved _ 1 0 0 (Reachable.joined _ 2 1 (Reachable.created 1) rfl)
      rfl)

/-- C5: cells are monotone under every operation — `create` starts all
Empty, `join` and `keepAlive` never touch the board, a `move` never changes
a non-Empty cell, and on a terminal phase a `move` leaves the board
byte-for-byte unchanged. -/
theorem claim_C5_cells_monotone (g : Game) (p j : Pubkey) (ts x y i : Nat) :
    ((Game.create p).board = List.replicate 9 BOARD_ITEM_FREE) ∧
    ((g.join j ts).2.board = g.board) ∧
    ((g.keep_alive p ts).2.board = g.board) ∧
    (g.board.getD i 0 ≠ BOARD_ITEM_FREE →
      (g.next_move p x y).2.board.getD i 0 = g.board.getD i 0) ∧
    (g.game_state.terminal → (g.next_move p x y).2.board = g.board) := by
  refine ⟨rfl, join_snd_board g j ts, (keep_alive_snd_frame g p ts).1, ?_, ?_⟩
  · intro hi
    by_cases hok : (g.next_move p x y).1 = Except.ok ()
    · obtain ⟨⟨hlt, hfree⟩, hcase⟩ := next_move_ok_inversion g p x y hok
      have hne : y * 3 + x ≠ i := fun he => hi (by rw [← he]; exact hfree)
      rcases hcase with ⟨-, -, h2⟩ | ⟨-, -, h2⟩ <;>
        · rw [h2]
          exact getD_set_ne g.board (y * 3 + x) i _ hne
    · rw [next_move_err_frame g p x y hok]
  · intro ht
    by_cases hok : (g.next_move p x y).1 = Except.ok ()
    · obtain ⟨-, hcase⟩ := next_move_ok_inversion g p x y hok
      rcases ht with ht | ht | ht <;>
        rcases hcase with ⟨hgs, -⟩ | ⟨hgs, -⟩ <;> simp [ht] at hgs
    · rw [next_move_err_frame g p x y hok]

/-- Witness for C5: on a concrete terminal match a move attempt changes no
cell, and a non-Empty cell keeps its mark. -/
theorem claim_C5_witness :
    ((wonFixture.next_move 2 0 1).2.board.getD 0 0 = wonFixture.board.getD 0 0) ∧
    ((wonFixture.next_move 2 0 1).2.board = wonFixture.board) := by
  have h := claim_C5_cells_monotone wonFixture 2 2 5 0 1 0
  exact ⟨h.2.2.2.1 (by decide), h.2.2.2.2 (Or.inl rfl)⟩

/-- C6: on a non-terminal match, `keepAlive` by a player matching a side
fails with `InvalidTimestamp` (match unchanged) when the timestamp does not
strictly exceed that side's stored value and otherwise updates exactly that
side's timestamp; a player matching neither side gets `PlayerNotFound`
(the X side is checked first, as the code does). -/
theorem claim_C6_keep_alive_validation (g : Game) (player : Pubkey) (ts : Nat)
    (hlive : ¬g.game_state.terminal) :
    (player = g.player_x →
      (ts ≤ g.keepAlive0 →
        g.keep_alive player ts = (Except.error ProgramError.InvalidTimestamp, g)) ∧
      (g.keepAlive0 < ts →
        g.keep_alive player ts = (Except.ok (), { g with keepAlive0 := ts }))) ∧
    (player ≠ g.player_x → player = g.player_o →
      (ts ≤ g.keepAlive1 →
        g.keep_alive player ts = (Except.error ProgramError.InvalidTimestamp, g)) ∧
      (g.keepAlive1 < ts →
        g.keep_alive player ts = (Except.ok (), { g with keepAlive1 := ts }))) ∧
    (player ≠ g.player_x → player ≠ g.player_o →
      g.keep_alive player ts = (Except.error ProgramError.PlayerNotFound, g)) := by
  rw [keep_alive_live_unfold g player ts hlive]
  refine ⟨fun hpx => ⟨fun h1 => ?_, fun h1 => ?_⟩,
    fun hnx hpo => ⟨fun h1 => ?_, fun h1 => ?_⟩, fun hnx hno => ?_⟩
  · rw [if_pos hpx, if_pos h1]
  · rw [if_pos hpx, if_neg (Nat.not_le.mpr h1)]
  · rw [if_neg hnx, if_pos hpo, if_pos h1]
  · rw [if_neg hnx, if_pos hpo, if_neg (Nat.not_le.mpr h1)]
  · rw [if_neg hnx, if_neg hno]

/-- Witness for C6: on a fresh match, a fresh timestamp from player X is
accepted into `keepAlive0`, and an unknown identity gets `PlayerNotFound`. -/
theorem claim_C6_witness :
    ((Game.create 1).keep_alive 1 5 =
      (Except.ok (), { Game.create 1 with keepAlive0 := 5 })) ∧
    ((Game.create 1).keep_alive 3 5 =
      (Except.error ProgramError.PlayerNotFound, Game.create 1)) := by
  have h1 := claim_C6_keep_alive_validation (Game.create 1) 1 5 (by decide)
  have h2 := claim_C6_keep_alive_validation (Game.create 1) 3 5 (by decide)
  exact ⟨(h1.1 rfl).2 (by decide), h2.2.2 (by decide) (by decide)⟩

/-- C7: `keepAlive` never changes the board, the phase, `playerX` or
`playerO`, and on a terminal match it always succeeds returning the match
entirely unchanged, for every player and timestamp. -/
theorem claim_C7_keep_alive_frame (g : Game) (player : Pubkey) (ts : Nat) :
    ((g.keep_alive player ts).2.board = g.board ∧
     (g.keep_alive player ts).2.game_state = g.game_state ∧
     (g.keep_alive player ts).2.player_x = g.player_x ∧
     (g.keep_alive player ts).2.player_o = g.player_o) ∧
    (g.game_state.terminal → g.keep_alive player ts = (Except.ok (), g)) :=
  ⟨keep_alive_snd_frame g player ts, keep_alive_terminal g player ts⟩

/-- Witness for C7: `keepAlive` on a concrete won match is a successful
no-op even for an unknown player and an arbitrary timestamp. -/
theorem claim_C7_witness :
    wonFixture.keep_alive 9 99 = (Except.ok (), wonFixture) :=
  (claim_C7_keep_alive_frame wonFixture 9 99).2 (Or.inl rfl)

/-- Counterexample to C10 as stated: on the Waiting match created by the
all-zero identity (`playerO` holds the all-zero sentinel and the claim's
premises hold), `keepAlive` with the all-zero identity and a fresh
timestamp succeeds but does NOT update `lastActiveO` — the zero identity
matches `playerX` first, so `lastActiveX` is updated instead. -/
theorem claim_C10_counterexample :
    (Game.create 0).game_state = GameState.Waiting ∧
    (Game.create 0).player_o = 0 ∧
    (Game.create 0).keepAlive1 < 5 ∧
    ((Game.create 0).keep_alive 0 5).1 = Except.ok () ∧
    ((Game.create 0).keep_alive 0 5).2.keepAlive1 = (Game.create 0).keepAlive1 ∧
    ((Game.create 0).keep_alive 0 5).2.keepAlive1 ≠ 5 ∧
    ((Game.create 0).keep_alive 0 5).2.keepAlive0 = 5 := by
  decide

/-- C10 amended: on a Waiting match whose `playerO` is the all-zero
sentinel and whose `playerX` is NOT the all-zero identity, `keepAlive`
with the all-zero identity and a timestamp strictly greater than the
stored `lastActiveO` succeeds and updates `lastActiveO`, even though no
second participant has joined; a subsequent join is then accepted exactly
when its timestamp strictly exceeds that updated value. -/
theorem claim_C10_zero_identity_keep_alive (g : Game) (ts : Nat)
    (hw : g.game_state = GameState.Waiting) (hpo : g.player_o = 0)
    (hpx : g.player_x ≠ 0) (hts : g.keepAlive1 < ts) :
    g.keep_alive 0 ts = (Except.ok (), { g with keepAlive1 := ts }) ∧
    (∀ j ts2,
      ((({ g with keepAlive1 := ts } : Game).join j ts2).1 = Except.ok () ↔
        ts < ts2)) := by
  have hlive : ¬g.game_state.terminal := by simp [hw]
  constructor
  · rw [keep_alive_live_unfold g 0 ts hlive]
    rw [if_neg (fun hc => hpx hc.symm), if_pos hpo.symm,
      if_neg (Nat.not_le.mpr hts)]
  · intro j ts2
    have hw2 : ({ g with keepAlive1 := ts } : Game).game_state =
        GameState.Waiting := hw
    constructor
    · intro hok
      obtain ⟨-, hlt, -⟩ := join_ok_inversion _ j ts2 hok
      exact hlt
    · intro hlt
      rw [join_waiting_fresh _ j ts2 hw2 hlt]

/-- Witness for the amended C10: on `create 1`, the zero-identity
keep-alive lands in `keepAlive1`, and a later join with a larger timestamp
is accepted. -/
theorem claim_C10_witness :
    ((Game.create 1).keep_alive 0 5 =
      (Except.ok (), { Game.create 1 with keepAlive1 := 5 })) ∧
    ((({ Game.create 1 with keepAlive1 := 5 } : Game).join 2 7).1 =
      Except.ok ()) := by
  have h := claim_C10_zero_identity_keep_alive (Game.create 1) 5 rfl rfl
    (by decide) (by decide)
  exact ⟨h.1, (h.2 2 7).mpr (by decide)⟩

end TicTacToe
